import Mathlib

/-! Shallow embedding of the HDF5mm handle layer: the native identifier
registry with its reference counts, the IdComponent lifetime operations
(copy, assignment, destruct), the concrete close routines of every handle
type, string flag parsing of the File constructor, recursive group creation,
and the typed read paths of DataSet and Attribute. Definitions are
translated from the headers under include/. -/

set_option autoImplicit false

namespace HDF5

/-- Native identifiers (hid_t), modelled as integers. -/
abbrev hid := Int

/-- The invalid identifier sentinel H5I_INVALID_HID, equal to -1. -/
def INVALID_HID : hid := -1

/-- Kinds of native identifiers, as reported by H5Iget_type. -/
inductive H5IType where
  | badid
  | file
  | group
  | datatype
  | dataspace
  | dataset
  | attr
  | genpropList
deriving DecidableEq

/-- The native identifier registry: each id has an object kind and a
reference count; a count of zero means the id is not registered. -/
structure NativeState where
  otype : hid → H5IType
  count : hid → Nat

/-- H5Iis_valid: true when the id is registered with a positive count. -/
def NativeState.is_valid (st : NativeState) (a : hid) : Bool :=
  decide (0 < st.count a)

/-- H5Iget_type: the kind of a live id; badid for a dead or unknown id. -/
def NativeState.get_type (st : NativeState) (a : hid) : H5IType :=
  if 0 < st.count a then st.otype a else H5IType.badid

/-- H5Iinc_ref: increment the reference count of an id. -/
def NativeState.inc_ref (st : NativeState) (a : hid) : NativeState :=
  ⟨st.otype, fun j => if j = a then st.count j + 1 else st.count j⟩

/-- H5Idec_ref, and also the decrement performed by the native close
routines: decrement the reference count of an id (the native object is
destroyed when the count reaches zero). -/
def NativeState.dec_ref (st : NativeState) (a : hid) : NativeState :=
  ⟨st.otype, fun j => if j = a then st.count j - 1 else st.count j⟩

/-- Exception (Exception.h): carries the formatted what() message. -/
structure Exception where
  what : String
deriving DecidableEq

/-- The Exception constructor: builds the message from the failing function
name and an optional detail string, exactly as Exception.h formats it. -/
def Exception.make (func_name detail : String) : Exception :=
  ⟨("Error in function \x27") ++ func_name ++ ("\x27") ++
    (if detail = ("") then (".") else ((":\n") ++ detail))⟩

/-- IdComponent copy constructor: adopt the id of the source handle and,
when that id is valid, increment its reference count. Returns the updated
native state and the id held by the new handle. -/
def IdComponent.copy (st : NativeState) (x : hid) : NativeState × hid :=
  (if st.is_valid x then st.inc_ref x else st, x)

/-- IdComponent assignment operator: when the two handles hold the same id
nothing happens; otherwise the current id is decremented when valid, the
other id is adopted, and its count is incremented when valid. -/
def IdComponent.assign (st : NativeState) (self other : hid) :
    NativeState × hid :=
  if other = self then (st, self)
  else
    let st1 := if st.is_valid self then st.dec_ref self else st
    let st2 := if st1.is_valid other then st1.inc_ref other else st1
    (st2, other)

/-- A native H5?close call (H5Fclose, H5Dclose, H5Gclose, ...): succeeds
when the id is registered with the matching kind, decrementing its count;
returns none (a negative herr_t) otherwise. -/
def nativeClose (k : H5IType) (st : NativeState) (a : hid) :
    Option NativeState :=
  if st.get_type a = k then some (st.dec_ref a) else none

/-- Result of a facade close call: the native state afterwards, the id left
stored in the handle, and whether a native close routine was invoked. -/
abbrev CloseResult := NativeState × hid × Bool

/-- File::close: H5Fclose, then invalidate; throws on a native failure. -/
def File.close (st : NativeState) (a : hid) : Except Exception CloseResult :=
  match nativeClose H5IType.file st a with
  | some st1 => Except.ok (st1, INVALID_HID, true)
  | none => Except.error (Exception.make ("File::close") (""))

/-- DataSet::close: H5Dclose, then invalidate; throws on a native failure. -/
def DataSet.close (st : NativeState) (a : hid) : Except Exception CloseResult :=
  match nativeClose H5IType.dataset st a with
  | some st1 => Except.ok (st1, INVALID_HID, true)
  | none => Except.error (Exception.make ("DataSet::close") (""))

/-- Group::close: returns without any native call when the stored id is not
a group according to H5Iget_type; otherwise H5Gclose. The stored id is never
invalidated. -/
def Group.close (st : NativeState) (a : hid) : Except Exception CloseResult :=
  if st.get_type a ≠ H5IType.group then Except.ok (st, a, false)
  else
    match nativeClose H5IType.group st a with
    | some st1 => Except.ok (st1, a, true)
    | none => Except.error (Exception.make ("Group::close") (""))

/-- DataSpace::close: returns without any native call when the stored id is
not a dataspace; otherwise H5Sclose. The stored id is never invalidated. -/
def DataSpace.close (st : NativeState) (a : hid) :
    Except Exception CloseResult :=
  if st.get_type a ≠ H5IType.dataspace then Except.ok (st, a, false)
  else
    match nativeClose H5IType.dataspace st a with
    | some st1 => Except.ok (st1, a, true)
    | none => Except.error (Exception.make ("DataSpace::close") (""))

/-- DataType::close: returns without any native call when the stored id is
not a datatype; otherwise H5Tclose. The stored id is never invalidated. -/
def DataType.close (st : NativeState) (a : hid) :
    Except Exception CloseResult :=
  if st.get_type a ≠ H5IType.datatype then Except.ok (st, a, false)
  else
    match nativeClose H5IType.datatype st a with
    | some st1 => Except.ok (st1, a, true)
    | none => Except.error (Exception.make ("DataType::close") (""))

/-- PropList::close: returns without any native call when the stored id is
not valid; otherwise H5Pclose. The stored id is never invalidated. -/
def PropList.close (st : NativeState) (a : hid) :
    Except Exception CloseResult :=
  if st.is_valid a = false then Except.ok (st, a, false)
  else
    match nativeClose H5IType.genpropList st a with
    | some st1 => Except.ok (st1, a, true)
    | none => Except.error (Exception.make ("PropList::close") (""))

/-- Attribute::close: H5Aclose with no guard; throws on a native failure and
never invalidates the stored id. -/
def Attribute.close (st : NativeState) (a : hid) :
    Except Exception CloseResult :=
  match nativeClose H5IType.attr st a with
  | some st1 => Except.ok (st1, a, true)
  | none => Except.error (Exception.make ("Attribute::close") (""))

/-- Two successive facade close calls on the same handle, the second one on
the id left stored in the handle by the first. -/
def closeTwice (c : NativeState → hid → Except Exception CloseResult)
    (st : NativeState) (a : hid) : Except Exception CloseResult :=
  match c st a with
  | Except.ok (st1, a1, _) => c st1 a1
  | Except.error e => Except.error e

/-- IdComponent::destruct, instantiated with the close routine of the
concrete subtype: return immediately when the stored id equals the
INVALID_HID sentinel; otherwise call close, swallowing an exception into a
diagnostic message printed to the error stream. Returns the final native
state, the stored id, whether close was attempted, and the diagnostic. -/
def IdComponent.destruct
    (c : NativeState → hid → Except Exception CloseResult)
    (st : NativeState) (a : hid) : NativeState × hid × Bool × Option String :=
  if a = INVALID_HID then (st, a, false, none)
  else
    match c st a with
    | Except.ok (st1, a1, _) => (st1, a1, true, none)
    | Except.error e => (st, a, true, some e.what)

/-- Numeric file access flags, with the values of H5Fpublic.h. -/
def H5F_ACC_RDONLY : Nat := 0

/-- Read-write (preserve) access flag. -/
def H5F_ACC_RDWR : Nat := 1

/-- Truncate access flag. -/
def H5F_ACC_TRUNC : Nat := 2

/-- Exclusive-creation access flag. -/
def H5F_ACC_EXCL : Nat := 4

/-- Creation access flag. -/
def H5F_ACC_CREAT : Nat := 16

/-- Native file open or create calls issued by File::_open_or_create. -/
inductive FileOp where
  | createCall (name : String) (flags : Nat)
  | openCall (name : String) (flags : Nat)
deriving DecidableEq

/-- File::_open_or_create: an H5Fcreate call when any of the creation flags
is present, an H5Fopen call otherwise. Returns the native calls issued. -/
def File._open_or_create (name : String) (flags : Nat) : List FileOp :=
  if flags &&& (H5F_ACC_TRUNC ||| H5F_ACC_EXCL ||| H5F_ACC_CREAT) ≠ 0 then
    [FileOp.createCall name flags]
  else [FileOp.openCall name flags]

/-- File::_str_to_flags: maps the three accepted strings to numeric flags
and throws on anything else. -/
def File._str_to_flags (flags_str : String) : Except Exception Nat :=
  if flags_str = ("r") then Except.ok H5F_ACC_RDONLY
  else if flags_str = ("r+") then Except.ok H5F_ACC_RDWR
  else if flags_str = ("w") then Except.ok H5F_ACC_TRUNC
  else Except.error (Exception.make ("File::_str_to_flags")
    (("Invalid access flag: ") ++ flags_str))

/-- The File constructor taking a string flag: the string is converted
first, so an invalid string raises before any native open or create call.
Returns the outcome together with the native file calls performed. -/
def File.constructWithStrFlags (name flags_str : String) :
    Except Exception Unit × List FileOp :=
  match File._str_to_flags flags_str with
  | Except.error e => (Except.error e, [])
  | Except.ok flags => (Except.ok (), File._open_or_create name flags)

/-- A group path: the list of link names from the root of the file. -/
abbrev GPath := List (List Char)

/-- The groups existing in an open file, as the list of their paths. -/
abbrev GroupState := List GPath

/-- Location::exists (H5Lexists) for a single link name under the group
cur. -/
def Location.existsLink (st : GroupState) (cur : GPath)
    (name : List Char) : Bool :=
  decide ((cur ++ [name]) ∈ st)

/-- Group::open_group (H5Gopen2): succeeds only when the group exists. -/
def Group.open_group (st : GroupState) (cur : GPath) (name : List Char) :
    Option (GroupState × GPath) :=
  if (cur ++ [name]) ∈ st then some (st, cur ++ [name]) else none

/-- Group::create_group (H5Gcreate2): fails when the link already exists;
otherwise registers the new group and returns its path. -/
def Group.create_group (st : GroupState) (cur : GPath) (name : List Char) :
    Option (GroupState × GPath) :=
  if (cur ++ [name]) ∈ st then none
  else some ((cur ++ [name]) :: st, cur ++ [name])

/-- Position of the last slash in a name (std::string::rfind of a slash),
returned as an index into the name. -/
def rfindSlash : (l : List Char) → Option (Fin l.length)
  | [] => none
  | c :: cs =>
    match rfindSlash cs with
    | some i => some i.succ
    | none => if c = '/' then some ⟨0, Nat.succ_pos _⟩ else none

/-- Splitting a name at every slash into its segments. This is used only to
state properties of create_groups, not by the embedded code itself. -/
def splitSlash : List Char → List (List Char)
  | [] => [[]]
  | c :: cs =>
    match splitSlash cs with
    | [] => [[c]]
    | s :: ss => if c = '/' then [] :: s :: ss else (c :: s) :: ss

/-- Group::create_groups: recursively create the groups along name and
return the deepest one. Mirrors the source: an empty name returns the
current group; a name without a slash is opened when it exists and created
otherwise; else the part before the last slash is processed recursively and
the final segment is processed from the group obtained. -/
def Group.create_groups (st : GroupState) (cur : GPath) (name : List Char) :
    Option (GroupState × GPath) :=
  if name = [] then some (st, cur)
  else
    match rfindSlash name with
    | none =>
        if Location.existsLink st cur name then Group.open_group st cur name
        else Group.create_group st cur name
    | some n =>
        match Group.create_groups st cur (name.take n.val) with
        | none => none
        | some (st1, p1) => Group.create_groups st1 p1 (name.drop (n.val + 1))
termination_by name.length
decreasing_by
  · simp only [List.length_take]
    exact lt_of_le_of_lt (Nat.min_le_left _ _) n.isLt
  · simp only [List.length_drop]
    have hlt := n.isLt
    omega

/-- Hyperslab selection parameters over the axes of a dataspace. -/
structure Hyperslab where
  start : List Nat
  stride : List Nat
  count : List Nat
  block : List Nat
deriving DecidableEq

/-- Current selection of a dataspace. -/
inductive Selection where
  | selAll
  | selNone
  | selHyper (h : Hyperslab)
deriving DecidableEq

/-- Extent and current selection of a dataspace. -/
structure SpaceDesc where
  dims : List Nat
  sel : Selection
deriving DecidableEq

/-- H5Sget_select_npoints: the number of selected elements of a dataspace. -/
def SpaceDesc.get_select_npoints (s : SpaceDesc) : Nat :=
  match s.sel with
  | Selection.selAll => s.dims.prod
  | Selection.selNone => 0
  | Selection.selHyper h => ((h.count.zip h.block).map (fun p => p.1 * p.2)).prod

/-- The H5S_ALL sentinel id (value 0), wrapped by DataSpace::ALL. -/
def H5S_ALL : hid := 0

/-- The std::vector resize call: keep the first elements and default-fill up
to the requested size. -/
def vectorResize {α : Type} (buf : List α) (n : Nat) (dflt : α) : List α :=
  buf.take n ++ List.replicate (n - buf.length) dflt

/-- DataSet::read into a std::vector: env gives the dataspace descriptor of
any dataspace id, dsetSpace is the dataspace of the dataset itself
(H5Dget_space). The chosen space is the dataset dataspace when mem_space is
the ALL sentinel, the given memory space otherwise. The destination is
resized to the selected point count of the chosen space and the native read
is then issued with a buffer of that size (returned second). -/
def DataSet.read_vector {α : Type} (env : hid → SpaceDesc)
    (dsetSpace : SpaceDesc) (mem_space : hid) (buf : List α) (dflt : α) :
    List α × Nat :=
  let space := if mem_space = H5S_ALL then dsetSpace else env mem_space
  let N := space.get_select_npoints
  (vectorResize buf N dflt, N)

/-- Datatype descriptor as seen by the string read paths: whether
H5Tis_variable_str holds, and the size reported by H5Tget_size. -/
structure DTypeDesc where
  variableStr : Bool
  size : Nat
deriving DecidableEq

/-- Native events of the string read paths. -/
inductive MemEvent where
  | nativeReadAlloc
  | nativeRead (bufBytes : Nat)
  | freeMemory
deriving DecidableEq

/-- Copy of a char buffer into a std::string: the bytes up to the first
NUL. -/
def cStringOf (l : List Char) : List Char :=
  l.takeWhile (fun c => c ≠ Char.ofNat 0)

/-- DataSet::read into a std::string: for a variable-length type the native
library allocates the C string alloc, which is copied into the destination
and then released with H5free_memory; for a fixed-length type of size N a
zero-initialised buffer of N + 1 bytes is passed to the native read, which
fills its first N bytes with fixedData, and the buffer is copied. Returns
the destination string and the native events in order. -/
def DataSet.read_string (dtype : DTypeDesc) (alloc : List Char)
    (fixedData : Nat → Char) : List Char × List MemEvent :=
  if dtype.variableStr then
    (cStringOf alloc, [MemEvent.nativeReadAlloc, MemEvent.freeMemory])
  else
    (cStringOf (((List.range dtype.size).map fixedData) ++ [Char.ofNat 0]),
      [MemEvent.nativeRead (dtype.size + 1)])

/-- Attribute::read into a std::string: same algorithm as the DataSet
path, duplicated in Attribute.h. -/
def Attribute.read_string (dtype : DTypeDesc) (alloc : List Char)
    (fixedData : Nat → Char) : List Char × List MemEvent :=
  if dtype.variableStr then
    (cStringOf alloc, [MemEvent.nativeReadAlloc, MemEvent.freeMemory])
  else
    (cStringOf (((List.range dtype.size).map fixedData) ++ [Char.ofNat 0]),
      [MemEvent.nativeRead (dtype.size + 1)])

/-- Distinct C++ host types appearing at PredType::get call sites. Under
the LP64 data model, the fixed-width typedefs resolve to: int8_t = signed
char, int16_t = short, int32_t = int, int64_t = long, and their unsigned
counterparts likewise. -/
inductive HostType where
  | cChar
  | cSChar
  | cUChar
  | cShort
  | cUShort
  | cInt
  | cUInt
  | cLong
  | cULong
  | cLongLong
  | cULongLong
  | cFloat
  | cDouble
  | cppString
deriving DecidableEq

/-- The int8_t typedef (LP64). -/
def int8_t : HostType := HostType.cSChar

/-- The int16_t typedef (LP64). -/
def int16_t : HostType := HostType.cShort

/-- The int32_t typedef (LP64). -/
def int32_t : HostType := HostType.cInt

/-- The int64_t typedef (LP64). -/
def int64_t : HostType := HostType.cLong

/-- The uint8_t typedef (LP64). -/
def uint8_t : HostType := HostType.cUChar

/-- The uint16_t typedef (LP64). -/
def uint16_t : HostType := HostType.cUShort

/-- The uint32_t typedef (LP64). -/
def uint32_t : HostType := HostType.cUInt

/-- The uint64_t typedef (LP64). -/
def uint64_t : HostType := HostType.cULong

/-- The PredType singletons defined in DataType.h. -/
inductive PredTypeId where
  | NATIVE_CHAR
  | NATIVE_INT
  | NATIVE_INT64
  | NATIVE_UINT64
  | NATIVE_DOUBLE
  | NATIVE_FLOAT
  | STRING_UTF8_VLEN
deriving DecidableEq

/-- Predefined native type ids referenced when building the singletons. -/
inductive NativeTypeId where
  | H5T_NATIVE_CHAR
  | H5T_NATIVE_INT
  | H5T_NATIVE_INT64
  | H5T_NATIVE_UINT64
  | H5T_NATIVE_DOUBLE
  | H5T_NATIVE_FLOAT
  | H5T_C_S1
deriving DecidableEq

/-- Native calls performed when a PredType singleton is constructed. -/
inductive TypeOp where
  | tcopy (src : NativeTypeId)
  | setSizeVariable
  | setCsetUtf8
deriving DecidableEq

/-- Native calls performed on first use of each PredType singleton: every
singleton copies its predefined native id once (the string singleton then
sets variable size and UTF-8 character set, as _create_vlen_string does). -/
def PredType.creation : PredTypeId → List TypeOp
  | PredTypeId.NATIVE_CHAR => [TypeOp.tcopy NativeTypeId.H5T_NATIVE_CHAR]
  | PredTypeId.NATIVE_INT => [TypeOp.tcopy NativeTypeId.H5T_NATIVE_INT]
  | PredTypeId.NATIVE_INT64 => [TypeOp.tcopy NativeTypeId.H5T_NATIVE_INT64]
  | PredTypeId.NATIVE_UINT64 => [TypeOp.tcopy NativeTypeId.H5T_NATIVE_UINT64]
  | PredTypeId.NATIVE_DOUBLE => [TypeOp.tcopy NativeTypeId.H5T_NATIVE_DOUBLE]
  | PredTypeId.NATIVE_FLOAT => [TypeOp.tcopy NativeTypeId.H5T_NATIVE_FLOAT]
  | PredTypeId.STRING_UTF8_VLEN =>
      [TypeOp.tcopy NativeTypeId.H5T_C_S1, TypeOp.setSizeVariable,
        TypeOp.setCsetUtf8]

/-- The explicit specialisations of PredType::get present in DataType.h;
none models a host type for which no specialisation exists (the call is
ill-formed for such a type). -/
def PredType.get : HostType → Option PredTypeId
  | HostType.cChar => some PredTypeId.NATIVE_CHAR
  | HostType.cInt => some PredTypeId.NATIVE_INT
  | HostType.cLong => some PredTypeId.NATIVE_INT64
  | HostType.cULong => some PredTypeId.NATIVE_UINT64
  | HostType.cDouble => some PredTypeId.NATIVE_DOUBLE
  | HostType.cFloat => some PredTypeId.NATIVE_FLOAT
  | HostType.cppString => some PredTypeId.STRING_UTF8_VLEN
  | _ => none

/-- Object::has_attribute: the raw H5Aexists return value (htri_t) is
converted to bool by the C++ implicit conversion, under which every nonzero
value, including a negative error code, becomes true. No error check is
performed and no exception is ever raised. -/
def Object.has_attribute (ret : Int) : Except Exception Bool :=
  Except.ok (decide (ret ≠ 0))

/-- A concrete registry used by witnesses: id 7 is a file with count 1,
id 8 a dataset with count 2, id 9 an attribute with count 1, id 10 a group
with count 1; everything else is unregistered. -/
def witnessState : NativeState :=
  ⟨fun j =>
      if j = 7 then H5IType.file
      else if j = 8 then H5IType.dataset
      else if j = 9 then H5IType.attr
      else if j = 10 then H5IType.group
      else H5IType.badid,
    fun j =>
      if j = 7 then 1
      else if j = 8 then 2
      else if j = 9 then 1
      else if j = 10 then 1
      else 0⟩

/-- A registry holding a single file id 7 with count 1, used by the close
idempotence counterexample. -/
def doubleCloseState : NativeState :=
  ⟨fun j => if j = 7 then H5IType.file else H5IType.badid,
    fun j => if j = 7 then 1 else 0⟩

/-- Whether an Except value is a success. -/
def exceptOk {ε α : Type} : Except ε α → Bool
  | Except.ok _ => true
  | Except.error _ => false

/-! Helper lemmas about the native registry. -/

/-- Reference counts after an increment. -/
theorem count_inc_ref (st : NativeState) (a b : hid) :
    (st.inc_ref a).count b = if b = a then st.count b + 1 else st.count b :=
  rfl

/-- Reference counts after a decrement. -/
theorem count_dec_ref (st : NativeState) (a b : hid) :
    (st.dec_ref a).count b = if b = a then st.count b - 1 else st.count b :=
  rfl

/-- Object kinds are unchanged by an increment. -/
theorem otype_inc_ref (st : NativeState) (a : hid) :
    (st.inc_ref a).otype = st.otype :=
  rfl

/-- Object kinds are unchanged by a decrement. -/
theorem otype_dec_ref (st : NativeState) (a : hid) :
    (st.dec_ref a).otype = st.otype :=
  rfl

/-- An id whose kind is not badid has a positive count. -/
theorem count_pos_of_get_type {st : NativeState} {a : hid} {k : H5IType}
    (h : st.get_type a = k) (hk : k ≠ H5IType.badid) : 0 < st.count a := by
  by_contra hc
  have h0 : ¬ 0 < st.count a := hc
  unfold NativeState.get_type at h
  rw [if_neg h0] at h
  exact hk h.symm

/-- Claim C1: assigning handle B to handle A with distinct ids first
decrements the count of the id of A (only when valid), then adopts the id
of B and increments its count (only when valid); with equal ids the
assignment changes nothing. -/
theorem assign_refcount_spec (st : NativeState) (a b : hid) :
    (b = a → IdComponent.assign st a b = (st, a)) ∧
    (b ≠ a →
      (IdComponent.assign st a b).2 = b ∧
      ((IdComponent.assign st a b).1.count a =
        if st.is_valid a then st.count a - 1 else st.count a) ∧
      ((IdComponent.assign st a b).1.count b =
        if st.is_valid b then st.count b + 1 else st.count b) ∧
      (∀ c, c ≠ a → c ≠ b →
        (IdComponent.assign st a b).1.count c = st.count c)) := by
  constructor
  · intro hba
    simp [IdComponent.assign, hba]
  · intro hba
    have hs1c : ∀ c, c ≠ a →
        (if st.is_valid a then st.dec_ref a else st).count c = st.count c := by
      intro c hc
      by_cases h : st.is_valid a <;> simp [h, count_dec_ref, hc]
    have hs1a : (if st.is_valid a then st.dec_ref a else st).count a
        = if st.is_valid a then st.count a - 1 else st.count a := by
      by_cases h : st.is_valid a <;> simp [h, count_dec_ref]
    have hs1b : (if st.is_valid a then st.dec_ref a else st).is_valid b
        = st.is_valid b := by
      by_cases h : 0 < st.count a
      · simp [NativeState.is_valid, h, count_dec_ref, hba]
      · simp [NativeState.is_valid, h]
    refine ⟨?_, ?_, ?_, ?_⟩
    · simp [IdComponent.assign, hba]
    · simp only [IdComponent.assign, if_neg hba, hs1b]
      by_cases hvb2 : st.is_valid b <;>
        simp [hvb2, count_inc_ref, Ne.symm hba, hs1a]
    · simp only [IdComponent.assign, if_neg hba, hs1b]
      by_cases hvb2 : st.is_valid b <;>
        simp [hvb2, count_inc_ref, hs1c b hba]
    · intro c hca hcb
      simp only [IdComponent.assign, if_neg hba, hs1b]
      by_cases hvb2 : st.is_valid b <;>
        simp [hvb2, count_inc_ref, hcb, hs1c c hca]

/-- Witness for C1 at ids 7 and 8 of the concrete registry, covering both
the equal-id and the distinct-id branch. -/
theorem assign_refcount_spec_witness :
    (((7 : hid) = 7) ∧ IdComponent.assign witnessState 7 7 =
      (witnessState, 7)) ∧
    ((8 : hid) ≠ 7) ∧
    ((IdComponent.assign witnessState 7 8).2 = 8 ∧
      ((IdComponent.assign witnessState 7 8).1.count 7 =
        if witnessState.is_valid 7 then witnessState.count 7 - 1
        else witnessState.count 7) ∧
      ((IdComponent.assign witnessState 7 8).1.count 8 =
        if witnessState.is_valid 8 then witnessState.count 8 + 1
        else witnessState.count 8) ∧
      (∀ c, c ≠ 7 → c ≠ 8 →
        (IdComponent.assign witnessState 7 8).1.count c =
          witnessState.count c)) :=
  ⟨⟨rfl, (assign_refcount_spec witnessState 7 7).1 rfl⟩,
    by decide, (assign_refcount_spec witnessState 7 8).2 (by decide)⟩

/-- Claim C2: copy-constructing handle B from a handle A that holds a valid
id increments the native reference count of that id by exactly one, and
destroying B (here a DataSet handle, whose destructor runs destruct and
H5Dclose) decrements it by exactly one, so the count is restored, no
diagnostic is emitted, and the id of A stays valid with its kind intact. -/
theorem copy_destruct_balance (st : NativeState) (a : hid)
    (hinv : a ≠ INVALID_HID) (hk : st.get_type a = H5IType.dataset) :
    (IdComponent.copy st a).2 = a ∧
    (IdComponent.copy st a).1.count a = st.count a + 1 ∧
    (∀ c, c ≠ a → (IdComponent.copy st a).1.count c = st.count c) ∧
    (IdComponent.destruct DataSet.close (IdComponent.copy st a).1 a).1.count a
      = st.count a ∧
    (IdComponent.destruct DataSet.close (IdComponent.copy st a).1 a).2.2.2
      = none ∧
    (IdComponent.destruct DataSet.close (IdComponent.copy st a).1 a).1.is_valid a
      = true ∧
    (IdComponent.destruct DataSet.close (IdComponent.copy st a).1 a).1.get_type a
      = H5IType.dataset := by
  have hpos : 0 < st.count a := count_pos_of_get_type hk (by decide)
  have hval : st.is_valid a = true := by
    simp [NativeState.is_valid, hpos]
  have hcopy : IdComponent.copy st a = (st.inc_ref a, a) := by
    simp [IdComponent.copy, hval]
  have hot : st.otype a = H5IType.dataset := by
    unfold NativeState.get_type at hk
    rwa [if_pos hpos] at hk
  have hgt : (st.inc_ref a).get_type a = H5IType.dataset := by
    unfold NativeState.get_type
    rw [count_inc_ref, if_pos rfl, if_pos (by omega), otype_inc_ref, hot]
  have hclose : DataSet.close (st.inc_ref a) a =
      Except.ok ((st.inc_ref a).dec_ref a, INVALID_HID, true) := by
    simp [DataSet.close, nativeClose, hgt]
  have hdest : IdComponent.destruct DataSet.close (st.inc_ref a) a =
      ((st.inc_ref a).dec_ref a, INVALID_HID, true, none) := by
    simp [IdComponent.destruct, hinv, hclose]
  have hc : ((st.inc_ref a).dec_ref a).count a = st.count a := by
    rw [count_dec_ref, if_pos rfl, count_inc_ref, if_pos rfl]
    omega
  refine ⟨by rw [hcopy], ?_, ?_, ?_, ?_, ?_, ?_⟩
  · rw [hcopy, count_inc_ref, if_pos rfl]
  · intro c hc2
    rw [hcopy, count_inc_ref, if_neg hc2]
  · rw [hcopy, hdest, hc]
  · rw [hcopy, hdest]
  · rw [hcopy, hdest]
    simp [NativeState.is_valid, hc, hpos]
  · rw [hcopy, hdest]
    unfold NativeState.get_type
    rw [hc, if_pos hpos, otype_dec_ref, otype_inc_ref, hot]

/-- Witness for C2: the dataset id 8 of the concrete registry. -/
theorem copy_destruct_balance_witness :
    ((8 : hid) ≠ INVALID_HID ∧
      witnessState.get_type 8 = H5IType.dataset) ∧
    ((IdComponent.copy witnessState 8).2 = 8 ∧
      (IdComponent.copy witnessState 8).1.count 8 = witnessState.count 8 + 1 ∧
      (∀ c, c ≠ 8 →
        (IdComponent.copy witnessState 8).1.count c = witnessState.count c) ∧
      (IdComponent.destruct DataSet.close
        (IdComponent.copy witnessState 8).1 8).1.count 8
          = witnessState.count 8 ∧
      (IdComponent.destruct DataSet.close
        (IdComponent.copy witnessState 8).1 8).2.2.2 = none ∧
      (IdComponent.destruct DataSet.close
        (IdComponent.copy witnessState 8).1 8).1.is_valid 8 = true ∧
      (IdComponent.destruct DataSet.close
        (IdComponent.copy witnessState 8).1 8).1.get_type 8
          = H5IType.dataset) :=
  ⟨⟨by decide, by decide⟩,
    copy_destruct_balance witnessState 8 (by decide) (by decide)⟩

/-- Claim C3 counterexample: a File handle on a file id with count one is
closed successfully, but the second close call passes the INVALID_HID
sentinel left by invalidate to the native close routine, which fails, so
the second close raises instead of being a silent no-op. This refutes the
claimed facade-level idempotence via the validity bit. -/
theorem close_not_idempotent_cex :
    exceptOk (File.close doubleCloseState 7) = true ∧
    closeTwice File.close doubleCloseState 7 =
      Except.error (Exception.make ("File::close") ("")) := by
  constructor
  · rfl
  · rfl

/-- Claim C3 amended: File::close and DataSet::close invoke the native
close routine and then invalidate the stored id, but they are not
idempotent: on an id whose kind does not match (in particular the sentinel
left after a successful close) the native routine fails and the facade
raises. Attribute::close invokes the native routine but never invalidates.
Group, DataSpace and DataType closes skip the native call (no error) when
the id is not of their kind, and PropList::close skips it when the id is
not valid; their idempotence comes from these native type and validity
checks, not from a validity bit. -/
theorem close_invalidate_spec (st : NativeState) (a : hid) :
    (st.get_type a = H5IType.file →
      File.close st a = Except.ok (st.dec_ref a, INVALID_HID, true)) ∧
    (st.get_type a ≠ H5IType.file →
      File.close st a = Except.error (Exception.make ("File::close") (""))) ∧
    (st.get_type a = H5IType.dataset →
      DataSet.close st a = Except.ok (st.dec_ref a, INVALID_HID, true)) ∧
    (st.get_type a ≠ H5IType.dataset →
      DataSet.close st a =
        Except.error (Exception.make ("DataSet::close") (""))) ∧
    (st.get_type a = H5IType.attr →
      Attribute.close st a = Except.ok (st.dec_ref a, a, true)) ∧
    (st.get_type a ≠ H5IType.attr →
      Attribute.close st a =
        Except.error (Exception.make ("Attribute::close") (""))) ∧
    (st.get_type a ≠ H5IType.group →
      Group.close st a = Except.ok (st, a, false)) ∧
    (st.get_type a = H5IType.group →
      Group.close st a = Except.ok (st.dec_ref a, a, true)) ∧
    (st.get_type a ≠ H5IType.dataspace →
      DataSpace.close st a = Except.ok (st, a, false)) ∧
    (st.get_type a ≠ H5IType.datatype →
      DataType.close st a = Except.ok (st, a, false)) ∧
    (st.is_valid a = false →
      PropList.close st a = Except.ok (st, a, false)) := by
  refine ⟨?_, ?_, ?_, ?_, ?_, ?_, ?_, ?_, ?_, ?_, ?_⟩ <;> intro h
  · simp [File.close, nativeClose, h]
  · simp [File.close, nativeClose, h]
  · simp [DataSet.close, nativeClose, h]
  · simp [DataSet.close, nativeClose, h]
  · simp [Attribute.close, nativeClose, h]
  · simp [Attribute.close, nativeClose, h]
  · simp [Group.close, h]
  · simp [Group.close, nativeClose, h]
  · simp [DataSpace.close, h]
  · simp [DataType.close, h]
  · simp [PropList.close, h]

/-- Witness for C3 amended: a live file id, a live attribute id, and an
unregistered id of the concrete registry. -/
theorem close_invalidate_spec_witness :
    (witnessState.get_type 7 = H5IType.file ∧
      File.close witnessState 7 =
        Except.ok (witnessState.dec_ref 7, INVALID_HID, true)) ∧
    (witnessState.get_type 9 = H5IType.attr ∧
      Attribute.close witnessState 9 =
        Except.ok (witnessState.dec_ref 9, 9, true)) ∧
    (witnessState.is_valid 100 = false ∧
      PropList.close witnessState 100 =
        Except.ok (witnessState, 100, false)) :=
  ⟨⟨by decide, (close_invalidate_spec witnessState 7).1 (by decide)⟩,
    ⟨by decide,
      (close_invalidate_spec witnessState 9).2.2.2.2.1 (by decide)⟩,
    ⟨by decide,
      (close_invalidate_spec witnessState
        100).2.2.2.2.2.2.2.2.2.2 (by decide)⟩⟩

/-- Claim C9 counterexample: when the native existence primitive returns
the negative value -1, has_attribute converts it to true and returns,
instead of raising an error. -/
theorem has_attribute_negative_cex :
    Object.has_attribute (-1) = Except.ok true :=
  rfl

/-- Claim C9 amended: has_attribute returns true whenever the native
ternary primitive returns a nonzero value, including negative error codes,
returns false for zero, and never raises. -/
theorem has_attribute_spec (r : Int) :
    (0 < r → Object.has_attribute r = Except.ok true) ∧
    (r = 0 → Object.has_attribute r = Except.ok false) ∧
    (r < 0 → Object.has_attribute r = Except.ok true) := by
  refine ⟨?_, ?_, ?_⟩ <;> intro h <;> simp [Object.has_attribute] <;> omega

/-- Witness for C9 amended at the return values 2, 0 and -3. -/
theorem has_attribute_spec_witness :
    ((0 : Int) < 2 ∧ Object.has_attribute 2 = Except.ok true) ∧
    ((0 : Int) = 0 ∧ Object.has_attribute 0 = Except.ok false) ∧
    ((-3 : Int) < 0 ∧ Object.has_attribute (-3) = Except.ok true) :=
  ⟨⟨by decide, (has_attribute_spec 2).1 (by decide)⟩,
    ⟨rfl, (has_attribute_spec 0).2.1 rfl⟩,
    ⟨by decide, (has_attribute_spec (-3)).2.2 (by decide)⟩⟩

/-- Claim C10: when the stored id equals the INVALID_HID sentinel, the
destructor of File and DataSet performs no close attempt and emits no
diagnostic; when the id differs from the sentinel it attempts close, and a
failure there is swallowed into the diagnostic message rather than
propagated. -/
theorem destruct_sentinel_spec (st : NativeState) (a : hid) :
    (a = INVALID_HID →
      IdComponent.destruct File.close st a = (st, a, false, none) ∧
      IdComponent.destruct DataSet.close st a = (st, a, false, none)) ∧
    (a ≠ INVALID_HID →
      (IdComponent.destruct File.close st a).2.2.1 = true ∧
      (IdComponent.destruct DataSet.close st a).2.2.1 = true) ∧
    (∀ e, a ≠ INVALID_HID → File.close st a = Except.error e →
      IdComponent.destruct File.close st a = (st, a, true, some e.what)) := by
  refine ⟨?_, ?_, ?_⟩
  · intro h
    constructor <;> simp [IdComponent.destruct, h]
  · intro h
    constructor
    · cases h2 : File.close st a with
      | ok v =>
          obtain ⟨s1, i1, b1⟩ := v
          simp [IdComponent.destruct, h, h2]
      | error e =>
          simp [IdComponent.destruct, h, h2]
    · cases h2 : DataSet.close st a with
      | ok v =>
          obtain ⟨s1, i1, b1⟩ := v
          simp [IdComponent.destruct, h, h2]
      | error e =>
          simp [IdComponent.destruct, h, h2]
  · intro e h he
    simp [IdComponent.destruct, h, he]

/-- Witness for C10 at the sentinel, at a live dataset id, and for the
swallowed failure of a File close on a dataset id. -/
theorem destruct_sentinel_spec_witness :
    ((INVALID_HID : hid) = INVALID_HID ∧
      IdComponent.destruct File.close witnessState INVALID_HID =
        (witnessState, INVALID_HID, false, none) ∧
      IdComponent.destruct DataSet.close witnessState INVALID_HID =
        (witnessState, INVALID_HID, false, none)) ∧
    ((8 : hid) ≠ INVALID_HID ∧
      (IdComponent.destruct File.close witnessState 8).2.2.1 = true ∧
      (IdComponent.destruct DataSet.close witnessState 8).2.2.1 = true) ∧
    ((8 : hid) ≠ INVALID_HID ∧
      File.close witnessState 8 =
        Except.error (Exception.make ("File::close") ("")) ∧
      IdComponent.destruct File.close witnessState 8 =
        (witnessState, 8, true,
          some (Exception.make ("File::close") ("")).what)) :=
  ⟨⟨rfl, (destruct_sentinel_spec witnessState INVALID_HID).1 rfl⟩,
    ⟨by decide, (destruct_sentinel_spec witnessState 8).2.1 (by decide)⟩,
    ⟨by decide, rfl,
      (destruct_sentinel_spec witnessState 8).2.2
        (Exception.make ("File::close") ("")) (by decide) rfl⟩⟩

/-- The detail string of an invalid-flag error is never empty. -/
theorem invalid_flag_detail_ne_empty (s : String) :
    (("Invalid access flag: ") ++ s) ≠ ("") := by
  intro hcontra
  have hlen := congrArg String.length hcontra
  rw [String.length_append] at hlen
  have h21 : (("Invalid access flag: ") : String).length = 21 := rfl
  have h0 : (("") : String).length = 0 := rfl
  omega

/-- Claim C4: the string-flag File constructor maps r to the read-only
flag, r+ to the read-write flag and w to the truncate flag; every other
string raises with a message ending in the text Invalid access flag
followed by the string, and in that case no native file open or create
call is issued. -/
theorem str_to_flags_spec :
    (File._str_to_flags ("r") = Except.ok H5F_ACC_RDONLY) ∧
    (File._str_to_flags ("r+") = Except.ok H5F_ACC_RDWR) ∧
    (File._str_to_flags ("w") = Except.ok H5F_ACC_TRUNC) ∧
    (∀ name s, s ≠ ("r") → s ≠ ("r+") → s ≠ ("w") →
      File.constructWithStrFlags name s =
        (Except.error (Exception.make ("File::_str_to_flags")
          (("Invalid access flag: ") ++ s)), []) ∧
      (Exception.make ("File::_str_to_flags")
          (("Invalid access flag: ") ++ s)).what =
        ("Error in function \x27File::_str_to_flags\x27:\n") ++
          (("Invalid access flag: ") ++ s)) := by
  refine ⟨rfl, rfl, rfl, ?_⟩
  intro name s h1 h2 h3
  constructor
  · simp [File.constructWithStrFlags, File._str_to_flags, h1, h2, h3]
  · unfold Exception.make
    rw [if_neg (invalid_flag_detail_ne_empty s)]
    rw [← String.append_assoc]
    rfl

/-- Witness for C4 with the rejected flag string x. -/
theorem str_to_flags_spec_witness :
    ((("x") : String) ≠ ("r") ∧ (("x") : String) ≠ ("r+") ∧
      (("x") : String) ≠ ("w")) ∧
    (File.constructWithStrFlags ("f.h5") ("x") =
        (Except.error (Exception.make ("File::_str_to_flags")
          (("Invalid access flag: ") ++ ("x"))), []) ∧
      (Exception.make ("File::_str_to_flags")
          (("Invalid access flag: ") ++ ("x"))).what =
        ("Error in function \x27File::_str_to_flags\x27:\n") ++
          (("Invalid access flag: ") ++ ("x"))) :=
  ⟨⟨by decide, by decide, by decide⟩,
    str_to_flags_spec.2.2.2 ("f.h5") ("x")
      (by decide) (by decide) (by decide)⟩

/-- The std::vector resize call yields exactly the requested length. -/
theorem length_vectorResize {α : Type} (buf : List α) (n : Nat) (dflt : α) :
    (vectorResize buf n dflt).length = n := by
  simp only [vectorResize, List.length_append, List.length_take,
    List.length_replicate]
  omega

/-- Claim C6: DataSet::read into a contiguous sequence resizes the
destination to exactly the selected point count of the chosen dataspace
before the native read, where the chosen space is the memory dataspace when
one other than the ALL sentinel was passed and the dataspace of the dataset
itself otherwise; the native read receives a buffer of that same size. -/
theorem read_vector_resize_spec {α : Type} (env : hid → SpaceDesc)
    (dsetSpace : SpaceDesc) (mem_space : hid) (buf : List α) (dflt : α) :
    (DataSet.read_vector env dsetSpace mem_space buf dflt).1.length =
      (if mem_space = H5S_ALL then dsetSpace
        else env mem_space).get_select_npoints ∧
    (DataSet.read_vector env dsetSpace mem_space buf dflt).2 =
      (if mem_space = H5S_ALL then dsetSpace
        else env mem_space).get_select_npoints := by
  constructor
  · by_cases h : mem_space = H5S_ALL <;>
      simp [DataSet.read_vector, h, length_vectorResize]
  · by_cases h : mem_space = H5S_ALL <;> simp [DataSet.read_vector, h]

/-- Claim C7: reading a string from a DataSet or an Attribute with a
variable-length stored type copies the natively allocated C string into the
destination and then releases it through the native free routine exactly
once; with a fixed-length stored type of size S it passes a buffer of
exactly S + 1 bytes to the native read and copies it, performing no
release. -/
theorem read_string_spec (dtype : DTypeDesc) (alloc : List Char)
    (fixedData : Nat → Char) :
    (dtype.variableStr = true →
      DataSet.read_string dtype alloc fixedData =
        (cStringOf alloc,
          [MemEvent.nativeReadAlloc, MemEvent.freeMemory]) ∧
      Attribute.read_string dtype alloc fixedData =
        (cStringOf alloc,
          [MemEvent.nativeReadAlloc, MemEvent.freeMemory]) ∧
      (DataSet.read_string dtype alloc fixedData).2.count
        MemEvent.freeMemory = 1) ∧
    (dtype.variableStr = false →
      DataSet.read_string dtype alloc fixedData =
        (cStringOf (((List.range dtype.size).map fixedData) ++
            [Char.ofNat 0]),
          [MemEvent.nativeRead (dtype.size + 1)]) ∧
      Attribute.read_string dtype alloc fixedData =
        (cStringOf (((List.range dtype.size).map fixedData) ++
            [Char.ofNat 0]),
          [MemEvent.nativeRead (dtype.size + 1)]) ∧
      (DataSet.read_string dtype alloc fixedData).2.count
        MemEvent.freeMemory = 0) := by
  constructor
  · intro h
    refine ⟨?_, ?_, ?_⟩ <;>
      simp [DataSet.read_string, Attribute.read_string, h, List.count_cons]
  · intro h
    refine ⟨?_, ?_, ?_⟩ <;>
      simp [DataSet.read_string, Attribute.read_string, h, List.count_cons]

/-- Witness for C7 with a variable-length type of size 8 and a
fixed-length type of size 3. -/
theorem read_string_spec_witness :
    ((DTypeDesc.mk true 8).variableStr = true ∧
      DataSet.read_string (DTypeDesc.mk true 8) (("hi").toList)
          (fun _ => Char.ofNat 97) =
        (cStringOf (("hi").toList),
          [MemEvent.nativeReadAlloc, MemEvent.freeMemory]) ∧
      Attribute.read_string (DTypeDesc.mk true 8) (("hi").toList)
          (fun _ => Char.ofNat 97) =
        (cStringOf (("hi").toList),
          [MemEvent.nativeReadAlloc, MemEvent.freeMemory]) ∧
      (DataSet.read_string (DTypeDesc.mk true 8) (("hi").toList)
          (fun _ => Char.ofNat 97)).2.count MemEvent.freeMemory = 1) ∧
    ((DTypeDesc.mk false 3).variableStr = false ∧
      DataSet.read_string (DTypeDesc.mk false 3) (("hi").toList)
          (fun _ => Char.ofNat 97) =
        (cStringOf (((List.range (DTypeDesc.mk false 3).size).map
              (fun _ => Char.ofNat 97)) ++ [Char.ofNat 0]),
          [MemEvent.nativeRead ((DTypeDesc.mk false 3).size + 1)]) ∧
      Attribute.read_string (DTypeDesc.mk false 3) (("hi").toList)
          (fun _ => Char.ofNat 97) =
        (cStringOf (((List.range (DTypeDesc.mk false 3).size).map
              (fun _ => Char.ofNat 97)) ++ [Char.ofNat 0]),
          [MemEvent.nativeRead ((DTypeDesc.mk false 3).size + 1)]) ∧
      (DataSet.read_string (DTypeDesc.mk false 3) (("hi").toList)
          (fun _ => Char.ofNat 97)).2.count MemEvent.freeMemory = 0) :=
  ⟨⟨rfl, (read_string_spec (DTypeDesc.mk true 8) (("hi").toList)
      (fun _ => Char.ofNat 97)).1 rfl⟩,
    ⟨rfl, (read_string_spec (DTypeDesc.mk false 3) (("hi").toList)
      (fun _ => Char.ofNat 97)).2 rfl⟩⟩

/-- Claim C8 counterexample: PredType::get has no specialisation for the
8-bit and 16-bit integer types nor for the unsigned 32-bit integer type,
so no singleton exists for them, contrary to the claimed full list of
signed and unsigned 8-, 16-, 32- and 64-bit integers. -/
theorem predtype_get_missing_cex :
    PredType.get uint32_t = none ∧
    PredType.get int8_t = none ∧
    PredType.get int16_t = none ∧
    PredType.get uint8_t = none ∧
    PredType.get uint16_t = none := by
  refine ⟨?_, ?_, ?_, ?_, ?_⟩ <;> rfl

/-- Claim C8 amended: PredType provides process-wide lazily initialised
singletons exactly for native char, native int (the 32-bit signed integer
under LP64), 64-bit signed and unsigned integers, native float and double,
and a variable-length UTF-8 string; PredType::get maps char, int, int64_t,
uint64_t, float, double and std::string to the corresponding singleton, and
has no specialisation for 8- or 16-bit integers or unsigned 32-bit
integers. Each singleton is produced by copying the native predefined id
exactly once (the string singleton then sets variable size and UTF-8
character set on the copy). -/
theorem predtype_get_spec :
    PredType.get HostType.cChar = some PredTypeId.NATIVE_CHAR ∧
    PredType.get HostType.cInt = some PredTypeId.NATIVE_INT ∧
    PredType.get int32_t = some PredTypeId.NATIVE_INT ∧
    PredType.get int64_t = some PredTypeId.NATIVE_INT64 ∧
    PredType.get uint64_t = some PredTypeId.NATIVE_UINT64 ∧
    PredType.get HostType.cFloat = some PredTypeId.NATIVE_FLOAT ∧
    PredType.get HostType.cDouble = some PredTypeId.NATIVE_DOUBLE ∧
    PredType.get HostType.cppString = some PredTypeId.STRING_UTF8_VLEN ∧
    PredType.get HostType.cSChar = none ∧
    PredType.get HostType.cShort = none ∧
    PredType.get HostType.cUChar = none ∧
    PredType.get HostType.cUShort = none ∧
    PredType.get HostType.cUInt = none ∧
    PredType.creation PredTypeId.STRING_UTF8_VLEN =
      [TypeOp.tcopy NativeTypeId.H5T_C_S1, TypeOp.setSizeVariable,
        TypeOp.setCsetUtf8] ∧
    PredType.creation PredTypeId.NATIVE_CHAR =
      [TypeOp.tcopy NativeTypeId.H5T_NATIVE_CHAR] ∧
    PredType.creation PredTypeId.NATIVE_INT =
      [TypeOp.tcopy NativeTypeId.H5T_NATIVE_INT] ∧
    PredType.creation PredTypeId.NATIVE_INT64 =
      [TypeOp.tcopy NativeTypeId.H5T_NATIVE_INT64] ∧
    PredType.creation PredTypeId.NATIVE_UINT64 =
      [TypeOp.tcopy NativeTypeId.H5T_NATIVE_UINT64] ∧
    PredType.creation PredTypeId.NATIVE_FLOAT =
      [TypeOp.tcopy NativeTypeId.H5T_NATIVE_FLOAT] ∧
    PredType.creation PredTypeId.NATIVE_DOUBLE =
      [TypeOp.tcopy NativeTypeId.H5T_NATIVE_DOUBLE] ∧
    (∀ p : PredTypeId,
      ((PredType.creation p).filter
        (fun op => match op with
          | TypeOp.tcopy _ => true
          | _ => false)).length = 1) := by
  refine ⟨rfl, rfl, rfl, rfl, rfl, rfl, rfl, rfl, rfl, rfl, rfl, rfl, rfl,
    rfl, rfl, rfl, rfl, rfl, rfl, rfl, ?_⟩
  intro p
  cases p <;> rfl

/-! Structure of rfindSlash and splitSlash, used to reason about
create_groups. -/

/-- Splitting never yields an empty list of segments. -/
theorem splitSlash_ne_nil (l : List Char) : splitSlash l ≠ [] := by
  cases l with
  | nil => simp [splitSlash]
  | cons c cs =>
    simp only [splitSlash]
    cases h : splitSlash cs with
    | nil => simp
    | cons s ss => by_cases hc : c = '/' <;> simp [hc]

/-- A name without a slash is its own single segment. -/
theorem rfindSlash_none_splitSlash {l : List Char}
    (h : rfindSlash l = none) : splitSlash l = [l] := by
  induction l with
  | nil => rfl
  | cons c cs ih =>
    have hcs : rfindSlash cs = none := by
      cases hx : rfindSlash cs with
      | none => rfl
      | some i => simp [rfindSlash, hx] at h
    have hc : c ≠ '/' := by
      intro hc
      simp [rfindSlash, hcs, hc] at h
    simp [splitSlash, ih hcs, hc]

/-- Splitting decomposes at the last slash: the segments of the name are
the segments of the part before the last slash followed by the part after
it, and the part after the last slash holds no further slash. -/
theorem rfindSlash_some_splitSlash :
    ∀ {l : List Char} {n : Fin l.length}, rfindSlash l = some n →
    splitSlash l = splitSlash (l.take n.val) ++ [l.drop (n.val + 1)] ∧
    rfindSlash (l.drop (n.val + 1)) = none := by
  intro l
  induction l with
  | nil =>
    intro n h
    exact absurd n.isLt (by simp)
  | cons c cs ih =>
    intro n h
    cases hx : rfindSlash cs with
    | some i =>
      have hn : i.succ = n := by
        simpa [rfindSlash, hx] using h
      obtain ⟨ih1, ih2⟩ := ih hx
      subst hn
      constructor
      · rw [Fin.val_succ, List.take_succ_cons, List.drop_succ_cons]
        have h1 := splitSlash_ne_nil (cs.take i.val)
        obtain ⟨s0, ss0, hs0⟩ :
            ∃ s0 ss0, splitSlash (cs.take i.val) = s0 :: ss0 := by
          cases hz : splitSlash (cs.take i.val) with
          | nil => exact absurd hz h1
          | cons a b => exact ⟨a, b, rfl⟩
        by_cases hc : c = '/' <;> simp [splitSlash, ih1, hs0, hc]
      · rw [Fin.val_succ, List.drop_succ_cons]
        exact ih2
    | none =>
      by_cases hc : c = '/'
      · have h0 : (⟨0, Nat.succ_pos cs.length⟩ : Fin (c :: cs).length) = n := by
          simpa [rfindSlash, hx, hc] using h
        have hn : n.val = 0 := (congrArg Fin.val h0).symm
        have hcs : splitSlash cs = [cs] := rfindSlash_none_splitSlash hx
        constructor
        · rw [hn]
          simp [splitSlash, hcs, hc]
        · rw [hn]
          simpa using hx
      · simp [rfindSlash, hx, hc] at h

/-- With no empty segment, the last slash is not at position zero. -/
theorem rfindSlash_some_pos {l : List Char} {n : Fin l.length}
    (h : rfindSlash l = some n) (hseg : [] ∉ splitSlash l) : 0 < n.val := by
  by_contra h0
  have hn0 : n.val = 0 := by omega
  obtain ⟨h1, _⟩ := rfindSlash_some_splitSlash h
  rw [hn0] at h1
  apply hseg
  rw [h1]
  simp [splitSlash]

/-- With no empty segment, the part after the last slash is nonempty. -/
theorem drop_ne_nil_of_seg {l : List Char} {n : Fin l.length}
    (h : rfindSlash l = some n) (hseg : [] ∉ splitSlash l) :
    l.drop (n.val + 1) ≠ [] := by
  intro hd
  obtain ⟨h1, _⟩ := rfindSlash_some_splitSlash h
  apply hseg
  rw [h1, hd]
  simp

/-- With no empty segment, the part before the last slash keeps that
property. -/
theorem take_seg_sub {l : List Char} {n : Fin l.length}
    (h : rfindSlash l = some n) (hseg : [] ∉ splitSlash l) :
    [] ∉ splitSlash (l.take n.val) := by
  intro hmem
  obtain ⟨h1, _⟩ := rfindSlash_some_splitSlash h
  exact hseg (h1 ▸ List.mem_append_left _ hmem)

/-- With no empty segment, the part before the last slash is nonempty. -/
theorem take_ne_nil {l : List Char} {n : Fin l.length}
    (h : rfindSlash l = some n) (hseg : [] ∉ splitSlash l) :
    l.take n.val ≠ [] := by
  have hpos := rfindSlash_some_pos h hseg
  intro hc
  have hlen := congrArg List.length hc
  rw [List.length_take] at hlen
  have hlt := n.isLt
  simp at hlen
  omega

/-- Unfolding create_groups on the empty name. -/
theorem create_groups_nil (st : GroupState) (cur : GPath) :
    Group.create_groups st cur [] = some (st, cur) := by
  rw [Group.create_groups.eq_def]
  simp

/-- Unfolding create_groups on a name without a slash. -/
theorem create_groups_noslash (st : GroupState) (cur : GPath)
    {name : List Char} (hne : name ≠ []) (hn : rfindSlash name = none) :
    Group.create_groups st cur name =
      if Location.existsLink st cur name then Group.open_group st cur name
      else Group.create_group st cur name := by
  rw [Group.create_groups.eq_def, if_neg hne, hn]

/-- Unfolding create_groups on a name with a last slash. -/
theorem create_groups_someslash (st : GroupState) (cur : GPath)
    {name : List Char} {n : Fin name.length} (hne : name ≠ [])
    (hn : rfindSlash name = some n) :
    Group.create_groups st cur name =
      match Group.create_groups st cur (name.take n.val) with
      | none => none
      | some (st1, p1) =>
          Group.create_groups st1 p1 (name.drop (n.val + 1)) := by
  rw [Group.create_groups.eq_def, if_neg hne, hn]

/-- Soundness of create_groups: on any state it succeeds, returns the path
of the deepest segment, only grows the state, and afterwards every prefix
of the segment path exists. -/
theorem create_groups_sound : ∀ (L : Nat) (name : List Char),
    name.length ≤ L → ∀ (st : GroupState) (cur : GPath), name ≠ [] →
    [] ∉ splitSlash name →
    ∃ st2, Group.create_groups st cur name =
        some (st2, cur ++ splitSlash name) ∧
      (∀ p, p ∈ st → p ∈ st2) ∧
      (∀ k, 0 < k → k ≤ (splitSlash name).length →
        cur ++ (splitSlash name).take k ∈ st2) := by
  intro L
  induction L with
  | zero =>
    intro name hlen st cur hne _
    exact absurd (List.eq_nil_of_length_eq_zero (Nat.le_zero.mp hlen)) hne
  | succ L IH =>
    intro name hlen st cur hne hseg
    cases hsl : rfindSlash name with
    | none =>
      have hsp := rfindSlash_none_splitSlash hsl
      rw [create_groups_noslash st cur hne hsl]
      by_cases hex : (cur ++ [name]) ∈ st
      · have hexb : Location.existsLink st cur name = true := by
          simp [Location.existsLink, hex]
        rw [hexb]
        refine ⟨st, ?_, fun p hp => hp, ?_⟩
        · simp [Group.open_group, hex, hsp]
        · intro k hk0 hk1
          rw [hsp] at hk1 ⊢
          simp at hk1
          have hk : k = 1 := by omega
          subst hk
          simpa using hex
      · have hexb : Location.existsLink st cur name = false := by
          simp [Location.existsLink, hex]
        rw [hexb]
        refine ⟨(cur ++ [name]) :: st, ?_,
          fun p hp => List.mem_cons_of_mem _ hp, ?_⟩
        · simp [Group.create_group, hex, hsp]
        · intro k hk0 hk1
          rw [hsp] at hk1 ⊢
          simp at hk1
          have hk : k = 1 := by omega
          subst hk
          simp
    | some n =>
      obtain ⟨hsp, hdropnone⟩ := rfindSlash_some_splitSlash hsl
      have htne := take_ne_nil hsl hseg
      have htseg := take_seg_sub hsl hseg
      have hdne := drop_ne_nil_of_seg hsl hseg
      have hdsp := rfindSlash_none_splitSlash hdropnone
      have hdseg : [] ∉ splitSlash (name.drop (n.val + 1)) := by
        rw [hdsp]
        intro hmem
        rw [List.mem_singleton] at hmem
        exact hdne hmem.symm
      have hvlt := n.isLt
      have hlt1 : (name.take n.val).length ≤ L := by
        rw [List.length_take]
        omega
      have hlt2 : (name.drop (n.val + 1)).length ≤ L := by
        rw [List.length_drop]
        omega
      obtain ⟨stA, hrunA, hmonoA, hpreA⟩ :=
        IH (name.take n.val) hlt1 st cur htne htseg
      obtain ⟨stB, hrunB, hmonoB, hpreB⟩ :=
        IH (name.drop (n.val + 1)) hlt2 stA
          (cur ++ splitSlash (name.take n.val)) hdne hdseg
      refine ⟨stB, ?_, fun p hp => hmonoB p (hmonoA p hp), ?_⟩
      · rw [create_groups_someslash st cur hne hsl]
        simp only [hrunA]
        rw [hrunB, hdsp, hsp, List.append_assoc]
      · intro k hk0 hk1
        rw [hsp] at hk1 ⊢
        rw [List.length_append] at hk1
        simp at hk1
        by_cases hk : k ≤ (splitSlash (name.take n.val)).length
        · rw [List.take_append_of_le_length hk]
          exact hmonoB _ (hpreA k hk0 hk)
        · have hkeq : k = (splitSlash (name.take n.val)).length + 1 := by
            omega
          subst hkeq
          have hfull : (splitSlash (name.take n.val) ++
              [name.drop (n.val + 1)]).length =
              (splitSlash (name.take n.val)).length + 1 := by
            simp
          rw [← hfull, List.take_length, ← List.append_assoc]
          have hlast := hpreB 1 (by omega) (by rw [hdsp]; simp)
          rw [hdsp] at hlast
          simpa using hlast

/-- Stability of create_groups: when every prefix of the segment path
already exists, the call opens every segment and leaves the state
unchanged, returning the same deepest path. -/
theorem create_groups_stable : ∀ (L : Nat) (name : List Char),
    name.length ≤ L → ∀ (st : GroupState) (cur : GPath), name ≠ [] →
    [] ∉ splitSlash name →
    (∀ k, 0 < k → k ≤ (splitSlash name).length →
      cur ++ (splitSlash name).take k ∈ st) →
    Group.create_groups st cur name = some (st, cur ++ splitSlash name) := by
  intro L
  induction L with
  | zero =>
    intro name hlen st cur hne _ _
    exact absurd (List.eq_nil_of_length_eq_zero (Nat.le_zero.mp hlen)) hne
  | succ L IH =>
    intro name hlen st cur hne hseg hpre
    cases hsl : rfindSlash name with
    | none =>
      have hsp := rfindSlash_none_splitSlash hsl
      have hex : (cur ++ [name]) ∈ st := by
        have := hpre 1 (by omega) (by rw [hsp]; simp)
        rw [hsp] at this
        simpa using this
      have hexb : Location.existsLink st cur name = true := by
        simp [Location.existsLink, hex]
      rw [create_groups_noslash st cur hne hsl, hexb]
      simp [Group.open_group, hex, hsp]
    | some n =>
      obtain ⟨hsp, hdropnone⟩ := rfindSlash_some_splitSlash hsl
      have htne := take_ne_nil hsl hseg
      have htseg := take_seg_sub hsl hseg
      have hdne := drop_ne_nil_of_seg hsl hseg
      have hdsp := rfindSlash_none_splitSlash hdropnone
      have hdseg : [] ∉ splitSlash (name.drop (n.val + 1)) := by
        rw [hdsp]
        intro hmem
        rw [List.mem_singleton] at hmem
        exact hdne hmem.symm
      have hvlt := n.isLt
      have hlt1 : (name.take n.val).length ≤ L := by
        rw [List.length_take]
        omega
      have hlt2 : (name.drop (n.val + 1)).length ≤ L := by
        rw [List.length_drop]
        omega
      have hpreA : ∀ k, 0 < k → k ≤ (splitSlash (name.take n.val)).length →
          cur ++ (splitSlash (name.take n.val)).take k ∈ st := by
        intro k hk0 hk
        have := hpre k hk0 (by rw [hsp]; simp; omega)
        rw [hsp, List.take_append_of_le_length hk] at this
        exact this
      have hrunA := IH (name.take n.val) hlt1 st cur htne htseg hpreA
      have hfullmem : cur ++ (splitSlash (name.take n.val) ++
          [name.drop (n.val + 1)]) ∈ st := by
        have hfull : (splitSlash (name.take n.val) ++
            [name.drop (n.val + 1)]).length =
            (splitSlash (name.take n.val)).length + 1 := by
          simp
        have := hpre ((splitSlash (name.take n.val)).length + 1) (by omega)
          (by rw [hsp, hfull])
        rw [hsp, ← hfull, List.take_length] at this
        exact this
      have hpreB : ∀ k, 0 < k →
          k ≤ (splitSlash (name.drop (n.val + 1))).length →
          (cur ++ splitSlash (name.take n.val)) ++
            (splitSlash (name.drop (n.val + 1))).take k ∈ st := by
        intro k hk0 hk
        rw [hdsp] at hk ⊢
        simp at hk
        have hkeq : k = 1 := by omega
        subst hkeq
        simpa [List.append_assoc] using hfullmem
      have hrunB := IH (name.drop (n.val + 1)) hlt2 st
        (cur ++ splitSlash (name.take n.val)) hdne hdseg hpreB
      rw [create_groups_someslash st cur hne hsl]
      simp only [hrunA]
      rw [hrunB, hdsp, hsp, List.append_assoc]

/-- Claim C5: for a slash-separated path with nonempty segments,
create_groups succeeds on every starting state (segments may pre-exist or
not), only adds groups, and the returned handle denotes the deepest
segment, which exists afterwards; running create_groups again on the
resulting state returns the same group and changes nothing. -/
theorem create_groups_spec (name : List Char) (st : GroupState)
    (cur : GPath) (hne : name ≠ []) (hseg : [] ∉ splitSlash name) :
    ∃ st2, Group.create_groups st cur name =
        some (st2, cur ++ splitSlash name) ∧
      (∀ p, p ∈ st → p ∈ st2) ∧
      (cur ++ splitSlash name) ∈ st2 ∧
      Group.create_groups st2 cur name =
        some (st2, cur ++ splitSlash name) := by
  obtain ⟨st2, hrun, hmono, hpre⟩ :=
    create_groups_sound name.length name (le_refl _) st cur hne hseg
  refine ⟨st2, hrun, hmono, ?_, ?_⟩
  · have hlen : 0 < (splitSlash name).length :=
      List.length_pos.mpr (splitSlash_ne_nil name)
    have := hpre (splitSlash name).length hlen (le_refl _)
    rwa [List.take_length] at this
  · exact create_groups_stable name.length name (le_refl _) st2 cur hne
      hseg hpre

/-- Witness for C5 on the path a/b/c starting from the empty file. -/
theorem create_groups_spec_witness :
    ((("a/b/c").toList ≠ ([] : List Char)) ∧
      ([] : List Char) ∉ splitSlash (("a/b/c").toList)) ∧
    (∃ st2, Group.create_groups ([] : GroupState) ([] : GPath)
          (("a/b/c").toList) =
        some (st2, ([] : GPath) ++ splitSlash (("a/b/c").toList)) ∧
      (∀ p, p ∈ ([] : GroupState) → p ∈ st2) ∧
      (([] : GPath) ++ splitSlash (("a/b/c").toList)) ∈ st2 ∧
      Group.create_groups st2 ([] : GPath) (("a/b/c").toList) =
        some (st2, ([] : GPath) ++ splitSlash (("a/b/c").toList))) :=
  ⟨⟨by decide, by decide⟩,
    create_groups_spec (("a/b/c").toList) [] [] (by decide) (by decide)⟩

end HDF5
